import Mathlib

/-!
Verification of the block payload builder (`payload_builder.rs`) and the
threshold-ECDSA pre-signer (`pre_signer.rs`) against their natural-language
specification.  The Rust code is shallowly embedded: pure structures become
Lean structures, machine integers become `Nat` (the only arithmetic on byte
counts is `saturating_sub`, which is `Nat` subtraction, and comparisons, so
no wrap-around modelling is needed), trait-object collaborators (registry,
ingress selector, xnet builder, crypto) become function-valued fields of an
environment record, and the interior-mutable `IngressPayloadCache` becomes an
explicit association list threaded through the call.
-/

/-! ## Payload builder: data model -/

/-- Ingress payload: the set of message ids it carries and its
`count_bytes()` size.  `count_bytes` of ingress is, per the spec, a pure
function of the payload contents, so it is simply a field. -/
structure IngressPayload where
  messageIds : List Nat
  countBytes : Nat
deriving DecidableEq, Repr

/-- XNet payload: opaque content plus its (possibly nondeterministic across
replicas) `count_bytes()` value, kept as a separate field precisely so that
independence from it can be stated. -/
structure XNetPayload where
  content : Nat
  countBytes : Nat
deriving DecidableEq, Repr

/-- The three payload fractions of a data block. The self-validating payload
is opaque to the core. -/
structure BatchPayload where
  ingress : IngressPayload
  xnet : XNetPayload
  self_validating : Nat
deriving DecidableEq, Repr

/-- A consensus `Payload`: either a summary block (no batch payload) or a
data block carrying a `BatchPayload`. -/
inductive PayloadM
  | summary
  | data (batch : BatchPayload)
deriving DecidableEq, Repr

/-- Model of `ValidationContext` threaded through every call. -/
structure ValidationContext where
  certified_height : Nat
  registry_version : Nat
  time : Nat
deriving DecidableEq, Repr

/-- The registry fields the payload builder consumes. -/
structure SubnetRecord where
  max_block_payload_size : Nat
  max_ingress_bytes_per_message : Nat
deriving DecidableEq, Repr

/-- One entry of `past_payloads`: `(height, time, payload)`. -/
def PastEntry : Type := Nat × Nat × PayloadM

instance : DecidableEq PastEntry := by
  unfold PastEntry
  infer_instance

/-- The ingress payload cache: `(height, payload_hash) → set<IngressMessageId>`,
as an association list (first binding wins on lookup). -/
def IngressCache : Type := List ((Nat × Nat) × List Nat)

instance : DecidableEq IngressCache := by
  unfold IngressCache
  infer_instance

def lookupCache (c : IngressCache) (k : Nat × Nat) : Option (List Nat) :=
  (c.find? (fun kv => kv.1 = k)).map (fun kv => kv.2)

def insertCache (c : IngressCache) (k : Nat × Nat) (v : List Nat) : IngressCache :=
  (k, v) :: c

/-- A list of hash sets implementing `IngressSetQuery` (struct `IngressSets`). -/
structure IngressSets where
  hash_sets : List (List Nat)
  min_block_time : Nat
deriving DecidableEq, Repr

/-- Model of `IngressSets::contains`: true iff any of the sets contains the id. -/
def IngressSets.containsId (s : IngressSets) (msg_id : Nat) : Bool :=
  s.hash_sets.any (fun set => set.contains msg_id)

/-- Model of `IngressSets::get_expiry_lower_bound`. -/
def IngressSets.get_expiry_lower_bound (s : IngressSets) : Nat :=
  s.min_block_time

/-- Permanent payload validation errors (`PayloadPermanentError`): the
variants relevant here, with collaborator rejections carried as opaque codes
in their own variants, distinct from `PayloadTooBig`. -/
inductive PayloadPermanentError
  | payloadTooBig (expected : Nat) (received : Nat)
  | ingressPayloadError (e : Nat)
  | xnetPayloadError (e : Nat)
  | selfValidatingPayloadError (e : Nat)
deriving DecidableEq, Repr

/-- Transient payload validation errors (`PayloadTransientError`). -/
inductive PayloadTransientError
  | registryUnavailable
  | ingressTransient (e : Nat)
  | xnetTransient (e : Nat)
  | selfValidatingTransient (e : Nat)
deriving DecidableEq, Repr

/-- Model of `ValidationError = Permanent | Transient`. -/
inductive PayloadValidationError
  | permanent (e : PayloadPermanentError)
  | transient (e : PayloadTransientError)
deriving DecidableEq, Repr

/-- Model of `PayloadBuilderError` returned by `get_payload`. -/
inductive PayloadBuilderError
  | registryUnavailable
deriving DecidableEq, Repr

/-- The external collaborators of `PayloadBuilderImpl`, with the ingress pool
and subnet id absorbed (they are fixed for one builder).  A collaborator
error is a pair `(is_replicated, code)`: replicated errors are mapped to the
permanent variants, others to the transient ones, as the `?` conversions in
the source do. -/
structure PayloadBuilderEnv where
  maxXNetPayloadInBytes : Nat
  getSubnetRecord : Nat → Option SubnetRecord
  getIngressPayload : IngressSets → ValidationContext → Nat → IngressPayload
  getXNetPayload : ValidationContext → List XNetPayload → Nat → XNetPayload
  getSelfValidatingPayload : ValidationContext → List Nat → Nat → Nat
  validateIngress : IngressPayload → IngressSets → ValidationContext → Except (Bool × Nat) Unit
  validateXNet : XNetPayload → ValidationContext → List XNetPayload → Except (Bool × Nat) Nat
  validateSV : Nat → ValidationContext → List Nat → Except (Bool × Nat) Unit
  hashPayload : BatchPayload → Nat

/-- Model of `get_max_block_payload_size_bytes` after the registry lookup succeeded:
the record value, raised to `max(MAX_XNET_PAYLOAD_IN_BYTES,
max_ingress_bytes_per_message)` when below it. -/
def maxBlockPayloadSize (env : PayloadBuilderEnv) (rec : SubnetRecord) : Nat :=
  let required_min_size := max env.maxXNetPayloadInBytes rec.max_ingress_bytes_per_message
  max rec.max_block_payload_size required_min_size

/-- Model of `min_block_time`: the time of the last (lowest-height) past payload, or
`context.time` when there are none. -/
def minBlockTime (past_payloads : List PastEntry) (context : ValidationContext) : Nat :=
  match past_payloads.getLast? with
  | none => context.time
  | some e => e.2.1

/-- The `past_xnet` component of `split_past_payloads`. -/
def pastXNetOf (past_payloads : List PastEntry) : List XNetPayload :=
  past_payloads.filterMap (fun e =>
    match e.2.2 with
    | .summary => none
    | .data b => some b.xnet)

/-- The `past_self_validating` component of `split_past_payloads`. -/
def pastSelfValidatingOf (past_payloads : List PastEntry) : List Nat :=
  past_payloads.filterMap (fun e =>
    match e.2.2 with
    | .summary => none
    | .data b => some b.self_validating)

/-- The `past_ingress` component of `split_past_payloads`, together with the
cache after the `or_insert_with` walk: for each non-summary ancestor the
cached id set under key `(height, payload_hash)` is used when present and
computed from the payload (and inserted) otherwise. -/
def pastIngressFold (env : PayloadBuilderEnv) (past_payloads : List PastEntry)
    (acc : List (List Nat)) (cache : IngressCache) : List (List Nat) × IngressCache :=
  match past_payloads with
  | [] => (acc, cache)
  | e :: rest =>
    match e.2.2 with
    | .summary => pastIngressFold env rest acc cache
    | .data b =>
      let k := (e.1, env.hashPayload b)
      match lookupCache cache k with
      | some v => pastIngressFold env rest (acc ++ [v]) cache
      | none =>
        pastIngressFold env rest (acc ++ [b.ingress.messageIds])
          (insertCache cache k b.ingress.messageIds)

def pastIngressOf (env : PayloadBuilderEnv) (cache : IngressCache)
    (past_payloads : List PastEntry) : List (List Nat) :=
  (pastIngressFold env past_payloads [] cache).1

/-- Cache garbage collection at the end of `split_past_payloads`: drop every
key whose height is below the minimum past-payload height. -/
def gcCache (cache : IngressCache) (past_payloads : List PastEntry) : IngressCache :=
  match past_payloads.getLast? with
  | none => cache
  | some e => cache.filter (fun kv => !(kv.1.1 < e.1))

/-- The cache state after `split_past_payloads` (insertions then GC). -/
def cacheAfterSplit (env : PayloadBuilderEnv) (cache : IngressCache)
    (past_payloads : List PastEntry) : IngressCache :=
  gcCache (pastIngressFold env past_payloads [] cache).2 past_payloads

/-- The `IngressSetQuery` both `get_payload` and `validate_payload` hand to
the ingress selector: the past ingress sets plus `min_block_time`. -/
def ingressQueryOf (env : PayloadBuilderEnv) (cache : IngressCache)
    (past_payloads : List PastEntry) (context : ValidationContext) : IngressSets :=
  { hash_sets := pastIngressOf env cache past_payloads
    min_block_time := minBlockTime past_payloads context }

/-- Model of `PayloadBuilderImpl::get_payload`.  Returns the `Result` together with
the cache left behind.  On even heights the xnet payload is requested first
with the whole budget and ingress gets the saturating remainder; on odd
heights the order is swapped.  The self-validating payload is fetched last
with the independent `MAX_XNET_PAYLOAD_IN_BYTES` cap. -/
def get_payload (env : PayloadBuilderEnv) (height : Nat)
    (past_payloads : List PastEntry) (context : ValidationContext)
    (cache : IngressCache) : Except PayloadBuilderError BatchPayload × IngressCache :=
  let past_xnet := pastXNetOf past_payloads
  let past_self_validating := pastSelfValidatingOf past_payloads
  let ingress_query := ingressQueryOf env cache past_payloads context
  let cache' := cacheAfterSplit env cache past_payloads
  match env.getSubnetRecord context.registry_version with
  | none => (.error .registryUnavailable, cache')
  | some rec =>
    let max_block_payload_size := maxBlockPayloadSize env rec
    let pair :=
      if height % 2 = 0 then
        let xnet := env.getXNetPayload context past_xnet max_block_payload_size
        let ingress := env.getIngressPayload ingress_query context
          (max_block_payload_size - xnet.countBytes)
        (ingress, xnet)
      else
        let ingress := env.getIngressPayload ingress_query context max_block_payload_size
        let xnet := env.getXNetPayload context past_xnet
          (max_block_payload_size - ingress.countBytes)
        (ingress, xnet)
    let self_validating := env.getSelfValidatingPayload context past_self_validating
      env.maxXNetPayloadInBytes
    (.ok { ingress := pair.1, xnet := pair.2, self_validating := self_validating }, cache')

def mapIngressErr (e : Bool × Nat) : PayloadValidationError :=
  if e.1 then .permanent (.ingressPayloadError e.2) else .transient (.ingressTransient e.2)

def mapXNetErr (e : Bool × Nat) : PayloadValidationError :=
  if e.1 then .permanent (.xnetPayloadError e.2) else .transient (.xnetTransient e.2)

def mapSVErr (e : Bool × Nat) : PayloadValidationError :=
  if e.1 then .permanent (.selfValidatingPayloadError e.2)
  else .transient (.selfValidatingTransient e.2)

/-- Model of `PayloadBuilderImpl::validate_payload`.  Summary payloads are accepted
outright; otherwise ingress validity is delegated, then the xnet validator
returns the canonical byte count `xnet_size`, and
`xnet_size + ingress.count_bytes() > max_block_payload_size` is rejected as
`Permanent(PayloadTooBig)`.  The payload's own `xnet.count_bytes()` is not
consulted. -/
def validate_payload (env : PayloadBuilderEnv) (payload : PayloadM)
    (past_payloads : List PastEntry) (context : ValidationContext)
    (cache : IngressCache) : Except PayloadValidationError Unit × IngressCache :=
  match payload with
  | .summary => (.ok (), cache)
  | .data batch =>
    let past_xnet := pastXNetOf past_payloads
    let past_self_validating := pastSelfValidatingOf past_payloads
    let ingress_query := ingressQueryOf env cache past_payloads context
    let cache' := cacheAfterSplit env cache past_payloads
    match env.getSubnetRecord context.registry_version with
    | none => (.error (.transient .registryUnavailable), cache')
    | some rec =>
      let max_block_payload_size := maxBlockPayloadSize env rec
      match env.validateIngress batch.ingress ingress_query context with
      | .error e => (.error (mapIngressErr e), cache')
      | .ok _ =>
        match env.validateXNet batch.xnet context past_xnet with
        | .error e => (.error (mapXNetErr e), cache')
        | .ok xnet_size =>
          if max_block_payload_size < xnet_size + batch.ingress.countBytes then
            (.error (.permanent (.payloadTooBig max_block_payload_size
              (xnet_size + batch.ingress.countBytes))), cache')
          else
            match env.validateSV batch.self_validating context past_self_validating with
            | .error e => (.error (mapSVErr e), cache')
            | .ok _ => (.ok (), cache')

/-! ## Pre-signer: data model -/

/-- Model of `EcdsaDealing`: node and transcript ids are `Nat`, the IDKG dealing
itself is opaque content. Key: `(transcript_id, dealer_id)`. -/
structure EcdsaDealing where
  requested_height : Nat
  transcript_id : Nat
  dealer_id : Nat
  dealing : Nat
deriving DecidableEq, Repr

/-- A multi-signature share over a dealing. -/
structure MultiSignatureShare where
  signer : Nat
  share : Nat
deriving DecidableEq, Repr

/-- Model of `EcdsaDealingSupport`: a dealing plus one receiver's signature share. -/
structure EcdsaDealingSupport where
  content : EcdsaDealing
  signature : MultiSignatureShare
deriving DecidableEq, Repr

/-- Model of `IDkgTranscriptParams`: the fields the pre-signer consumes.  Dealer and
receiver sets are lists (membership is all that is used). -/
structure IDkgTranscriptParams where
  transcript_id : Nat
  dealers : List Nat
  receivers : List Nat
  registry_version : Nat
  verification_threshold : Nat
  collection_threshold : Nat
deriving DecidableEq, Repr

/-- The view over the finalized block: its height and the requested
transcripts. -/
structure EcdsaBlockReader where
  height : Nat
  requested_transcripts : List IDkgTranscriptParams
deriving DecidableEq, Repr

/-- The artifact pool snapshot: the unvalidated and validated halves, each
listing `(message_id, artifact)` pairs for dealings and supports. -/
structure EcdsaPoolM where
  unvalidatedDealings : List (Nat × EcdsaDealing)
  validatedDealings : List (Nat × EcdsaDealing)
  unvalidatedSupports : List (Nat × EcdsaDealingSupport)
  validatedSupports : List (Nat × EcdsaDealingSupport)
deriving DecidableEq, Repr

/-- The human-readable `HandleInvalid` reasons, abstracted from the format
strings of the source. -/
inductive InvalidReason
  | duplicateDealingInBatch
  | unexpectedDealing
  | duplicateDealing
  | dealingPermanentError
  | duplicateSupportInBatch
  | unexpectedSupport
  | duplicateSupport
  | supportVerifyError
deriving DecidableEq, Repr

/-- Model of `EcdsaChangeAction`.  `addToValidated` carries an opaque message id; it
never occurs in the validation passes, which is claim C10. -/
inductive EcdsaChangeAction
  | handleInvalid (id : Nat) (reason : InvalidReason)
  | removeUnvalidated (id : Nat)
  | moveToValidated (id : Nat)
  | removeValidated (id : Nat)
  | addToValidated (msg : Nat)
deriving DecidableEq, Repr

/-- The action classifier verdict. -/
inductive EcdsaAction
  | process (params : IDkgTranscriptParams)
  | defer
  | drop
deriving DecidableEq, Repr

/-- Model of `Action::action`: defer messages from ahead of the finalized height,
process messages for requested transcripts, drop the rest. -/
def EcdsaAction.action (block_reader : EcdsaBlockReader) (msg_height : Nat)
    (msg_transcript_id : Nat) : EcdsaAction :=
  if block_reader.height < msg_height then
    .defer
  else
    match block_reader.requested_transcripts.find?
        (fun p => p.transcript_id = msg_transcript_id) with
    | some p => .process p
    | none => .drop

/-- Outcome of `verify_dealing_public`, with the `is_replicated()` tag on
errors. -/
inductive VerifyDealingResult
  | ok
  | permanentErr
  | transientErr
deriving DecidableEq, Repr

/-- Outcome of the multi-signature share verification (no transient/permanent
distinction is made for supports in the source). -/
inductive VerifySupportResult
  | ok
  | err
deriving DecidableEq, Repr

def dealingKey (d : EcdsaDealing) : Nat × Nat :=
  (d.transcript_id, d.dealer_id)

def supportKey (s : EcdsaDealingSupport) : Nat × Nat × Nat :=
  (s.content.transcript_id, s.content.dealer_id, s.signature.signer)

/-- Model of `has_dealer_issued_dealing`: a validated dealing with this key exists. -/
def has_dealer_issued_dealing (pool : EcdsaPoolM) (transcript_id dealer_id : Nat) : Bool :=
  pool.validatedDealings.any (fun e =>
    e.2.dealer_id = dealer_id ∧ e.2.transcript_id = transcript_id)

/-- Model of `has_node_issued_dealing_support`: a validated support with this
`(transcript_id, dealer_id, signer)` exists. -/
def has_node_issued_dealing_support (pool : EcdsaPoolM)
    (transcript_id dealer_id node_id : Nat) : Bool :=
  pool.validatedSupports.any (fun e =>
    e.2.content.dealer_id = dealer_id ∧ e.2.content.transcript_id = transcript_id
      ∧ e.2.signature.signer = node_id)

/-- The keys of all unvalidated dealings, in pool order. -/
def unvalidatedDealingKeys (pool : EcdsaPoolM) : List (Nat × Nat) :=
  pool.unvalidatedDealings.map (fun e => dealingKey e.2)

/-- A key is in `duplicate_keys` exactly when the first scan saw it at least
twice. -/
def isDuplicateDealingKey (pool : EcdsaPoolM) (k : Nat × Nat) : Bool :=
  2 ≤ (unvalidatedDealingKeys pool).count k

/-- Model of `crypto_verify_dealing`: move on success, `HandleInvalid` on a
replicated (permanent) error, no change on a transient error. -/
def crypto_verify_dealing
    (verify : IDkgTranscriptParams → EcdsaDealing → VerifyDealingResult)
    (id : Nat) (transcript_params : IDkgTranscriptParams) (dealing : EcdsaDealing) :
    List EcdsaChangeAction :=
  match verify transcript_params dealing with
  | .ok => [.moveToValidated id]
  | .permanentErr => [.handleInvalid id .dealingPermanentError]
  | .transientErr => []

/-- The classifier-driven part of the second scan of `validate_dealings`,
for one surviving unvalidated dealing. -/
def classifyDealing (pool : EcdsaPoolM) (block_reader : EcdsaBlockReader)
    (verify : IDkgTranscriptParams → EcdsaDealing → VerifyDealingResult)
    (e : Nat × EcdsaDealing) : List EcdsaChangeAction :=
  match EcdsaAction.action block_reader e.2.requested_height e.2.transcript_id with
  | .process transcript_params =>
    if !(transcript_params.dealers.contains e.2.dealer_id) then
      [.handleInvalid e.1 .unexpectedDealing]
    else if has_dealer_issued_dealing pool e.2.transcript_id e.2.dealer_id then
      [.handleInvalid e.1 .duplicateDealing]
    else
      crypto_verify_dealing verify e.1 transcript_params e.2
  | .drop => [.removeUnvalidated e.1]
  | .defer => []

/-- The per-entry contribution of `validate_dealings`: batch duplicates are
invalidated outright, everything else goes to the classifier. -/
def validateDealingEntry (pool : EcdsaPoolM) (block_reader : EcdsaBlockReader)
    (verify : IDkgTranscriptParams → EcdsaDealing → VerifyDealingResult)
    (e : Nat × EcdsaDealing) : List EcdsaChangeAction :=
  if isDuplicateDealingKey pool (dealingKey e.2) then
    [.handleInvalid e.1 .duplicateDealingInBatch]
  else
    classifyDealing pool block_reader verify e

/-- Model of `validate_dealings`: the concatenated contributions over the unvalidated
dealings, in pool order. -/
def validate_dealings (pool : EcdsaPoolM) (block_reader : EcdsaBlockReader)
    (verify : IDkgTranscriptParams → EcdsaDealing → VerifyDealingResult) :
    List EcdsaChangeAction :=
  pool.unvalidatedDealings.flatMap (validateDealingEntry pool block_reader verify)

/-- The `(transcript_id, dealer_id)` keys of the validated dealings
(`valid_dealings` in the source). -/
def validDealingKeys (pool : EcdsaPoolM) : List (Nat × Nat) :=
  pool.validatedDealings.map (fun e => dealingKey e.2)

def isDuplicateSupportKey (pool : EcdsaPoolM) (k : Nat × Nat × Nat) : Bool :=
  2 ≤ (pool.unvalidatedSupports.map (fun e => supportKey e.2)).count k

/-- Model of `crypto_verify_dealing_support`: move on success, `HandleInvalid` on any
verification error. -/
def crypto_verify_dealing_support
    (verify : IDkgTranscriptParams → EcdsaDealingSupport → VerifySupportResult)
    (id : Nat) (transcript_params : IDkgTranscriptParams)
    (support : EcdsaDealingSupport) : List EcdsaChangeAction :=
  match verify transcript_params support with
  | .ok => [.moveToValidated id]
  | .err => [.handleInvalid id .supportVerifyError]

/-- The per-entry contribution of `validate_dealing_support`: batch
duplicates are invalidated; otherwise, under `Process`, the signer must be a
receiver, the supported dealing must already be validated (else the support
is deferred with no change), and the signer must not already have a
validated support, before the share is verified. -/
def validateSupportEntry (pool : EcdsaPoolM) (block_reader : EcdsaBlockReader)
    (verify : IDkgTranscriptParams → EcdsaDealingSupport → VerifySupportResult)
    (e : Nat × EcdsaDealingSupport) : List EcdsaChangeAction :=
  if isDuplicateSupportKey pool (supportKey e.2) then
    [.handleInvalid e.1 .duplicateSupportInBatch]
  else
    match EcdsaAction.action block_reader e.2.content.requested_height
        e.2.content.transcript_id with
    | .process transcript_params =>
      if !(transcript_params.receivers.contains e.2.signature.signer) then
        [.handleInvalid e.1 .unexpectedSupport]
      else if !((validDealingKeys pool).contains (dealingKey e.2.content)) then
        []
      else if has_node_issued_dealing_support pool e.2.content.transcript_id
          e.2.content.dealer_id e.2.signature.signer then
        [.handleInvalid e.1 .duplicateSupport]
      else
        crypto_verify_dealing_support verify e.1 transcript_params e.2
    | .drop => [.removeUnvalidated e.1]
    | .defer => []

/-- Model of `validate_dealing_support`. -/
def validate_dealing_support (pool : EcdsaPoolM) (block_reader : EcdsaBlockReader)
    (verify : IDkgTranscriptParams → EcdsaDealingSupport → VerifySupportResult) :
    List EcdsaChangeAction :=
  pool.unvalidatedSupports.flatMap (validateSupportEntry pool block_reader verify)

/-- The transcript ids currently being built (`in_progress`). -/
def inProgressIds (block_reader : EcdsaBlockReader) : List Nat :=
  block_reader.requested_transcripts.map (fun p => p.transcript_id)

/-- Model of `should_purge`: requested at or below the finalized height and no longer
among the requested transcripts. -/
def should_purge (dealing : EcdsaDealing) (current_height : Nat)
    (in_progress : List Nat) : Bool :=
  dealing.requested_height ≤ current_height
    && !(in_progress.contains dealing.transcript_id)

/-- Model of `purge_artifacts`: removals over the four pool sections, in source
order. -/
def purge_artifacts (pool : EcdsaPoolM) (block_reader : EcdsaBlockReader) :
    List EcdsaChangeAction :=
  let in_progress := inProgressIds block_reader
  let current_height := block_reader.height
  ((pool.unvalidatedDealings.filter
      (fun e => should_purge e.2 current_height in_progress)).map
    (fun e => .removeUnvalidated e.1))
  ++ ((pool.validatedDealings.filter
      (fun e => should_purge e.2 current_height in_progress)).map
    (fun e => .removeValidated e.1))
  ++ ((pool.unvalidatedSupports.filter
      (fun e => should_purge e.2.content current_height in_progress)).map
    (fun e => .removeUnvalidated e.1))
  ++ ((pool.validatedSupports.filter
      (fun e => should_purge e.2.content current_height in_progress)).map
    (fun e => .removeValidated e.1))

/-! ## Transcript builder -/

/-- The validated support shares matching a dealing's
`(transcript_id, dealer_id)`, in pool order. -/
def supportSharesFor (pool : EcdsaPoolM) (dealing : EcdsaDealing) :
    List EcdsaDealingSupport :=
  pool.validatedSupports.filterMap (fun e =>
    if e.2.content.transcript_id = dealing.transcript_id
        ∧ e.2.content.dealer_id = dealing.dealer_id then
      some e.2
    else
      none)

/-- Model of `crypto_aggregate_dealing_support`: below the verification threshold no
aggregation is attempted; otherwise the (opaque) multi-signature aggregation
is invoked and may itself fail. -/
def crypto_aggregate_dealing_support
    (aggregate : List MultiSignatureShare → Nat → Option Nat)
    (transcript_params : IDkgTranscriptParams)
    (support_shares : List EcdsaDealingSupport) : Option Nat :=
  if support_shares.length < transcript_params.verification_threshold then
    none
  else
    aggregate (support_shares.map (fun s => s.signature))
      transcript_params.registry_version

/-- Model of `BTreeMap::insert` on an association list: replace the binding when the
key is present, append otherwise. -/
def insertAssoc {α : Type} (m : List (Nat × α)) (k : Nat) (v : α) : List (Nat × α) :=
  if m.any (fun e => e.1 = k) then
    m.map (fun e => if e.1 = k then (k, v) else e)
  else
    m ++ [(k, v)]

/-- The walk of step 1 of `get_completed_transcripts` restricted to one
requested transcript, with the completed-dealings map accumulated
explicitly. -/
def completedDealingsGo (pool : EcdsaPoolM)
    (aggregate : List MultiSignatureShare → Nat → Option Nat)
    (transcript_params : IDkgTranscriptParams)
    (dealings : List (Nat × EcdsaDealing))
    (acc : List (Nat × (EcdsaDealing × Nat))) : List (Nat × (EcdsaDealing × Nat)) :=
  match dealings with
  | [] => acc
  | e :: rest =>
    if e.2.transcript_id = transcript_params.transcript_id then
      match crypto_aggregate_dealing_support aggregate transcript_params
          (supportSharesFor pool e.2) with
      | some multi_sig =>
        completedDealingsGo pool aggregate transcript_params rest
          (insertAssoc acc e.2.dealer_id (e.2, multi_sig))
      | none => completedDealingsGo pool aggregate transcript_params rest acc
    else
      completedDealingsGo pool aggregate transcript_params rest acc

/-- Step 1 of `get_completed_transcripts`, restricted to one requested
transcript: walk the validated dealings for this transcript id and record a
completed (multi-signed) dealing per dealer whenever aggregation succeeds. -/
def completedDealingsFor (pool : EcdsaPoolM)
    (aggregate : List MultiSignatureShare → Nat → Option Nat)
    (transcript_params : IDkgTranscriptParams) :
    List (Nat × (EcdsaDealing × Nat)) :=
  completedDealingsGo pool aggregate transcript_params pool.validatedDealings []

/-- Model of `crypto_create_transcript`: below the collection threshold transcript
creation is not attempted; otherwise the (opaque) IDKG transcript creation
is invoked and may fail. -/
def crypto_create_transcript
    (createTranscript : IDkgTranscriptParams → List (Nat × (EcdsaDealing × Nat)) → Option Nat)
    (transcript_params : IDkgTranscriptParams)
    (verified_dealings : List (Nat × (EcdsaDealing × Nat))) : Option Nat :=
  if verified_dealings.length < transcript_params.collection_threshold then
    none
  else
    createTranscript transcript_params verified_dealings

/-- The `transcript_id → params` map built from the requested transcripts. -/
def buildParamsMap (l : List IDkgTranscriptParams) : List (Nat × IDkgTranscriptParams) :=
  l.foldl (fun m p => insertAssoc m p.transcript_id p) []

/-- Model of `get_completed_transcripts`: for each requested transcript, aggregate
supports into completed dealings and then attempt transcript creation. -/
def get_completed_transcripts (pool : EcdsaPoolM) (block_reader : EcdsaBlockReader)
    (aggregate : List MultiSignatureShare → Nat → Option Nat)
    (createTranscript : IDkgTranscriptParams → List (Nat × (EcdsaDealing × Nat)) → Option Nat) :
    List Nat :=
  (buildParamsMap block_reader.requested_transcripts).filterMap (fun e =>
    crypto_create_transcript createTranscript e.2 (completedDealingsFor pool aggregate e.2))

/-! ## Canonical-state reject context decoding

The `TryFrom<types::RejectContext>` implementation lives outside the
repository slice (only its tests are under `src/`), so it is modelled from
the spec here. -/

/-- Model of `RejectCode`: the five reject codes, with wire values 1 through 5
(`CanisterError` = `RejectCode::MAX` = 5). -/
inductive RejectCode
  | sysFatal
  | sysTransient
  | destinationInvalid
  | canisterReject
  | canisterError
deriving DecidableEq, Repr

/-- Modelled from the spec: the wire decoding of a reject code byte; only
values 1 through 5 are valid. -/
def RejectCode.fromCode : Nat → Option RejectCode
  | 1 => some .sysFatal
  | 2 => some .sysTransient
  | 3 => some .destinationInvalid
  | 4 => some .canisterReject
  | 5 => some .canisterError
  | _ => none

/-- The domain `RejectContext`. -/
structure RejectContext where
  code : RejectCode
  message : String
deriving DecidableEq, Repr

/-- The canonical (wire) form of a reject context: a raw code byte plus the
message. -/
structure CanonicalRejectContext where
  code : Nat
  message : String
deriving DecidableEq, Repr

/-- Structured decode errors (`ProxyDecodeError`): the variants surfaced by
the canonical-state conversions. -/
inductive ProxyDecodeError
  | other (msg : String)
  | valueOutOfRange (typ : String) (err : String)
deriving DecidableEq, Repr

/-- Modelled from the spec: decoding a canonical `RejectContext` fails with
`ValueOutOfRange{typ: "RejectCode", value: <code>}` when the code byte is
not a valid reject code, and produces the domain value otherwise. -/
def rejectContextTryFrom (c : CanonicalRejectContext) :
    Except ProxyDecodeError RejectContext :=
  match RejectCode.fromCode c.code with
  | none => .error (.valueOutOfRange "RejectCode" (toString c.code))
  | some code => .ok { code := code, message := c.message }

/-! ## Cache coherence

The ingress payload cache is a performance aid: `get_payload` treats a cached
id set as interchangeable with the set recomputed from the ancestor payload.
A cache is *coherent* for a `past_payloads` list when every binding it holds
for one of the list's `(height, payload_hash)` keys is exactly the payload's
ingress id set, and the payloads are *hash consistent* when equal keys imply
equal ingress id sets (the crypto-hash collision-freedom assumption). -/

/-- The canonical ingress id sets of the non-summary ancestors (what the
cache-miss path computes). -/
def specPastIngress (past_payloads : List PastEntry) : List (List Nat) :=
  past_payloads.filterMap (fun e =>
    match e.2.2 with
    | .summary => none
    | .data b => some b.ingress.messageIds)

def entryCoherent (env : PayloadBuilderEnv) (cache : IngressCache) (e : PastEntry) : Bool :=
  match e.2.2 with
  | .summary => true
  | .data b =>
    match lookupCache cache (e.1, env.hashPayload b) with
    | some v => v = b.ingress.messageIds
    | none => true

def CacheCoherent (env : PayloadBuilderEnv) (cache : IngressCache)
    (past_payloads : List PastEntry) : Prop :=
  ∀ e ∈ past_payloads, entryCoherent env cache e = true

def entriesConsistent (env : PayloadBuilderEnv) (e e' : PastEntry) : Bool :=
  match e.2.2, e'.2.2 with
  | .data b, .data b' =>
    if e.1 = e'.1 ∧ env.hashPayload b = env.hashPayload b' then
      b.ingress.messageIds = b'.ingress.messageIds
    else
      true
  | _, _ => true

def HashConsistent (env : PayloadBuilderEnv) (past_payloads : List PastEntry) : Prop :=
  ∀ e ∈ past_payloads, ∀ e' ∈ past_payloads, entriesConsistent env e e' = true

instance (env : PayloadBuilderEnv) (cache : IngressCache) (past_payloads : List PastEntry) :
    Decidable (CacheCoherent env cache past_payloads) := by
  unfold CacheCoherent
  infer_instance

instance (env : PayloadBuilderEnv) (past_payloads : List PastEntry) :
    Decidable (HashConsistent env past_payloads) := by
  unfold HashConsistent
  infer_instance

/-- The spec's wording of the expiry lower bound: the minimum ancestor time
over all entries of `past_payloads`, or `ctx.time` when there are none.
(Refinement target for claim C7; the code uses the last entry's time.) -/
def specExpiryLowerBound (past_payloads : List PastEntry)
    (context : ValidationContext) : Nat :=
  match past_payloads.map (fun e => e.2.1) with
  | [] => context.time
  | t :: ts => ts.foldl min t

/-- The message ids of the unvalidated pool half (both artifact kinds);
validation-pass change actions only ever target these. -/
def unvalidatedIds (pool : EcdsaPoolM) : List Nat :=
  pool.unvalidatedDealings.map (fun e => e.1)
    ++ pool.unvalidatedSupports.map (fun e => e.1)

/-! ## Concrete fixtures used by the witnesses -/

def batchW : BatchPayload :=
  { ingress := { messageIds := [5], countBytes := 2 }
    xnet := { content := 0, countBytes := 1 }
    self_validating := 0 }

def batchW2 : BatchPayload :=
  { ingress := { messageIds := [6], countBytes := 3 }
    xnet := { content := 0, countBytes := 1 }
    self_validating := 0 }

/-- A batch payload whose combined canonical size (50 xnet + 200 ingress)
exceeds the 100-byte budget of `envW`. -/
def batchBig : BatchPayload :=
  { ingress := { messageIds := [], countBytes := 200 }
    xnet := { content := 0, countBytes := 50 }
    self_validating := 0 }

def envW : PayloadBuilderEnv :=
  { maxXNetPayloadInBytes := 10
    getSubnetRecord := fun _ =>
      some { max_block_payload_size := 100, max_ingress_bytes_per_message := 5 }
    getIngressPayload := fun _ _ limit => { messageIds := [1], countBytes := min limit 7 }
    getXNetPayload := fun _ _ limit => { content := 1, countBytes := min limit 20 }
    getSelfValidatingPayload := fun _ _ _ => 3
    validateIngress := fun _ _ _ => .ok ()
    validateXNet := fun x _ _ => .ok x.countBytes
    validateSV := fun _ _ _ => .ok ()
    hashPayload := fun b => b.ingress.countBytes }

def ctxW : ValidationContext :=
  { certified_height := 0, registry_version := 1, time := 42 }

def recW : SubnetRecord :=
  { max_block_payload_size := 100, max_ingress_bytes_per_message := 5 }

def pastW : List PastEntry := [(1, 42, .data batchW)]

def cacheW : IngressCache := [((1, 2), [5])]

/-- A `past_payloads` list whose last (lowest-height) entry does not carry
the minimal time: the code's expiry lower bound is 10 while the minimum is 5. -/
def pastTimesW : List PastEntry := [(2, 5, .data batchW), (1, 10, .data batchW2)]

def dealingB1 : EcdsaDealing :=
  { requested_height := 10, transcript_id := 2, dealer_id := 20, dealing := 0 }

def dealingB2 : EcdsaDealing :=
  { requested_height := 10, transcript_id := 2, dealer_id := 20, dealing := 1 }

def dealingC : EcdsaDealing :=
  { requested_height := 10, transcript_id := 2, dealer_id := 21, dealing := 0 }

def paramsW : IDkgTranscriptParams :=
  { transcript_id := 2, dealers := [20, 21], receivers := [30]
    registry_version := 0, verification_threshold := 1, collection_threshold := 1 }

def blockReaderW : EcdsaBlockReader :=
  { height := 100, requested_transcripts := [paramsW] }

/-- The S3 scenario pool: two unvalidated dealings with the same key from
dealer 20 plus a single one from dealer 21, all for transcript 2. -/
def poolS3 : EcdsaPoolM :=
  { unvalidatedDealings := [(1, dealingB1), (2, dealingB2), (3, dealingC)]
    validatedDealings := []
    unvalidatedSupports := []
    validatedSupports := [] }

def verifyDealingW : IDkgTranscriptParams → EcdsaDealing → VerifyDealingResult :=
  fun _ _ => .ok

def verifySupportW : IDkgTranscriptParams → EcdsaDealingSupport → VerifySupportResult :=
  fun _ _ => .ok

def dealingD : EcdsaDealing :=
  { requested_height := 10, transcript_id := 3, dealer_id := 20, dealing := 0 }

def supportD : EcdsaDealingSupport :=
  { content := dealingD, signature := { signer := 30, share := 0 } }

def paramsD : IDkgTranscriptParams :=
  { transcript_id := 3, dealers := [20], receivers := [30]
    registry_version := 0, verification_threshold := 1, collection_threshold := 1 }

def blockReaderD : EcdsaBlockReader :=
  { height := 100, requested_transcripts := [paramsD] }

/-- Support arrived before its dealing was validated. -/
def poolNoDealing : EcdsaPoolM :=
  { unvalidatedDealings := []
    validatedDealings := []
    unvalidatedSupports := [(5, supportD)]
    validatedSupports := [] }

/-- The same pool on a later tick, after the dealing was validated. -/
def poolWithDealing : EcdsaPoolM :=
  { unvalidatedDealings := []
    validatedDealings := [(6, dealingD)]
    unvalidatedSupports := [(5, supportD)]
    validatedSupports := [] }

/-- A pool for the purge scenario: one stale unvalidated dealing (height 20,
transcript 2) and one fresh validated dealing (height 200). -/
def poolPurge : EcdsaPoolM :=
  { unvalidatedDealings := [(1, { requested_height := 20, transcript_id := 2
                                  dealer_id := 20, dealing := 0 })]
    validatedDealings := [(2, { requested_height := 200, transcript_id := 2
                                dealer_id := 20, dealing := 0 })]
    unvalidatedSupports := []
    validatedSupports := [] }

def blockReaderPurge : EcdsaBlockReader :=
  { height := 100
    requested_transcripts := [{ transcript_id := 1, dealers := [20], receivers := [30]
                                registry_version := 0, verification_threshold := 1
                                collection_threshold := 1 }] }

/-- A pool where one dealing for transcript 3 has a single validated
support. -/
def poolAgg : EcdsaPoolM :=
  { unvalidatedDealings := []
    validatedDealings := [(6, dealingD)]
    unvalidatedSupports := []
    validatedSupports := [(7, supportD)] }

def aggregateW : List MultiSignatureShare → Nat → Option Nat :=
  fun _ _ => some 7

def createTranscriptW : IDkgTranscriptParams → List (Nat × (EcdsaDealing × Nat)) → Option Nat :=
  fun _ _ => some 9

/-! ## Helper lemmas -/

theorem lookupCache_insert (c : IngressCache) (k k' : Nat × Nat) (v : List Nat) :
    lookupCache (insertCache c k v) k' = if k = k' then some v else lookupCache c k' := by
  by_cases h : k = k' <;> simp [lookupCache, insertCache, List.find?, h]

/-- With a coherent cache and hash-consistent ancestors, the cache walk
computes exactly the canonical ingress id sets. -/
theorem pastIngressFold_eq_spec (env : PayloadBuilderEnv) :
    ∀ (past : List PastEntry) (acc : List (List Nat)) (cache : IngressCache),
    HashConsistent env past → CacheCoherent env cache past →
    (pastIngressFold env past acc cache).1 = acc ++ specPastIngress past := by
  intro past
  induction past with
  | nil => intro acc cache _ _; simp [pastIngressFold, specPastIngress]
  | cons e rest ih =>
    intro acc cache hHC hC
    have hHCr : HashConsistent env rest := by
      intro x hx y hy
      exact hHC x (List.mem_cons_of_mem e hx) y (List.mem_cons_of_mem e hy)
    obtain ⟨h, t, p⟩ := e
    cases p with
    | summary =>
      have hCr : CacheCoherent env cache rest := by
        intro x hx; exact hC x (List.mem_cons_of_mem _ hx)
      simpa [pastIngressFold, specPastIngress] using ih acc cache hHCr hCr
    | data b =>
      have hhead := hC (h, t, .data b) (List.mem_cons_self _ _)
      cases hl : lookupCache cache (h, env.hashPayload b) with
      | some v =>
        have hv : v = b.ingress.messageIds := by
          simpa [entryCoherent, hl] using hhead
        have hCr : CacheCoherent env cache rest := by
          intro x hx; exact hC x (List.mem_cons_of_mem _ hx)
        have hres := ih (acc ++ [v]) cache hHCr hCr
        simp only [pastIngressFold, hl]
        rw [hres, hv]
        simp [specPastIngress]
      | none =>
        have hCr : CacheCoherent env
            (insertCache cache (h, env.hashPayload b) b.ingress.messageIds) rest := by
          intro x hx
          obtain ⟨hx1, tx, px⟩ := x
          cases px with
          | summary => simp [entryCoherent]
          | data b' =>
            by_cases hk : (h, env.hashPayload b) = (hx1, env.hashPayload b')
            · have h1 : h = hx1 := congrArg Prod.fst hk
              have h2 : env.hashPayload b = env.hashPayload b' := congrArg Prod.snd hk
              have hmsg : b.ingress.messageIds = b'.ingress.messageIds := by
                have hcons := hHC (h, t, .data b) (List.mem_cons_self _ _)
                  (hx1, tx, .data b') (List.mem_cons_of_mem _ hx)
                simpa [entriesConsistent, h1, h2] using hcons
              simp [entryCoherent, lookupCache_insert, hk, hmsg]
            · have hold := hC (hx1, tx, .data b') (List.mem_cons_of_mem _ hx)
              simp only [entryCoherent] at hold
              simpa [entryCoherent, lookupCache_insert, hk] using hold
        have hres := ih (acc ++ [b.ingress.messageIds])
          (insertCache cache (h, env.hashPayload b) b.ingress.messageIds) hHCr hCr
        simp only [pastIngressFold, hl]
        rw [hres]
        simp [specPastIngress]

/-! ## Claim theorems -/

/-- C9: decoding a canonical `RejectContext` with code 0 fails with
`ValueOutOfRange{typ: "RejectCode", value: "0"}`, and with code
`RejectCode::MAX + 1 = 6` it fails with `ValueOutOfRange{typ: "RejectCode",
value: "6"}`; neither decode produces a `RejectContext` value. -/
theorem reject_context_decode_out_of_range :
    rejectContextTryFrom { code := 0, message := "Oops" }
        = .error (.valueOutOfRange "RejectCode" "0")
      ∧ rejectContextTryFrom { code := 6, message := "Oops" }
        = .error (.valueOutOfRange "RejectCode" "6") := by
  exact ⟨rfl, rfl⟩

/-- C1: with a registry-derived budget `B = maxBlockPayloadSize`, an even
height requests the xnet payload first with limit `B` and then the ingress
payload with the saturating remainder `B - xnet.count_bytes()`; an odd
height requests ingress first with limit `B` and xnet with the saturating
remainder. -/
theorem get_payload_parity_budget
    (env : PayloadBuilderEnv) (height : Nat) (past_payloads : List PastEntry)
    (context : ValidationContext) (cache : IngressCache) (rec : SubnetRecord)
    (hreg : env.getSubnetRecord context.registry_version = some rec) :
    (height % 2 = 0 →
      (get_payload env height past_payloads context cache).1 = .ok
        { xnet := env.getXNetPayload context (pastXNetOf past_payloads)
            (maxBlockPayloadSize env rec)
          ingress := env.getIngressPayload (ingressQueryOf env cache past_payloads context)
            context (maxBlockPayloadSize env rec
              - (env.getXNetPayload context (pastXNetOf past_payloads)
                  (maxBlockPayloadSize env rec)).countBytes)
          self_validating := env.getSelfValidatingPayload context
            (pastSelfValidatingOf past_payloads) env.maxXNetPayloadInBytes })
    ∧ (height % 2 = 1 →
      (get_payload env height past_payloads context cache).1 = .ok
        { ingress := env.getIngressPayload (ingressQueryOf env cache past_payloads context)
            context (maxBlockPayloadSize env rec)
          xnet := env.getXNetPayload context (pastXNetOf past_payloads)
            (maxBlockPayloadSize env rec
              - (env.getIngressPayload (ingressQueryOf env cache past_payloads context)
                  context (maxBlockPayloadSize env rec)).countBytes)
          self_validating := env.getSelfValidatingPayload context
            (pastSelfValidatingOf past_payloads) env.maxXNetPayloadInBytes }) := by
  constructor
  · intro he
    simp [get_payload, hreg, he]
  · intro ho
    simp [get_payload, hreg, ho]

/-- Witness for C1 at an even and an odd height against concrete
collaborators. -/
theorem get_payload_parity_budget_witness :
    (get_payload envW 0 [] ctxW []).1 = .ok
      { xnet := envW.getXNetPayload ctxW (pastXNetOf []) (maxBlockPayloadSize envW recW)
        ingress := envW.getIngressPayload (ingressQueryOf envW [] [] ctxW) ctxW
          (maxBlockPayloadSize envW recW
            - (envW.getXNetPayload ctxW (pastXNetOf [])
                (maxBlockPayloadSize envW recW)).countBytes)
        self_validating := envW.getSelfValidatingPayload ctxW (pastSelfValidatingOf [])
          envW.maxXNetPayloadInBytes }
    ∧ (get_payload envW 1 [] ctxW []).1 = .ok
      { ingress := envW.getIngressPayload (ingressQueryOf envW [] [] ctxW) ctxW
          (maxBlockPayloadSize envW recW)
        xnet := envW.getXNetPayload ctxW (pastXNetOf [])
          (maxBlockPayloadSize envW recW
            - (envW.getIngressPayload (ingressQueryOf envW [] [] ctxW) ctxW
                (maxBlockPayloadSize envW recW)).countBytes)
        self_validating := envW.getSelfValidatingPayload ctxW (pastSelfValidatingOf [])
          envW.maxXNetPayloadInBytes } :=
  ⟨(get_payload_parity_budget envW 0 [] ctxW [] recW rfl).1 rfl,
   (get_payload_parity_budget envW 1 [] ctxW [] recW rfl).2 rfl⟩

/-- C2: for a non-summary payload whose ingress and xnet validations
succeed, `validate_payload` returns
`Permanent(PayloadTooBig{expected = B, received = xnet_size +
ingress.count_bytes()})` exactly when `xnet_size + ingress.count_bytes()`
exceeds the registry-derived budget `B`, where `xnet_size` is the canonical
size returned by the xnet validator; the payload's own `xnet.count_bytes()`
is never consulted, so swapping the xnet component for any other with the
same canonical size leaves the verdict unchanged. -/
theorem validate_payload_too_big_iff
    (env : PayloadBuilderEnv) (batch : BatchPayload) (past_payloads : List PastEntry)
    (context : ValidationContext) (cache : IngressCache) (rec : SubnetRecord)
    (xnet_size : Nat)
    (hreg : env.getSubnetRecord context.registry_version = some rec)
    (hing : env.validateIngress batch.ingress
      (ingressQueryOf env cache past_payloads context) context = .ok ())
    (hx : env.validateXNet batch.xnet context (pastXNetOf past_payloads) = .ok xnet_size) :
    ((validate_payload env (.data batch) past_payloads context cache).1
        = .error (.permanent (.payloadTooBig (maxBlockPayloadSize env rec)
            (xnet_size + batch.ingress.countBytes)))
      ↔ maxBlockPayloadSize env rec < xnet_size + batch.ingress.countBytes)
    ∧ (∀ xnet' : XNetPayload,
        env.validateXNet xnet' context (pastXNetOf past_payloads) = .ok xnet_size →
        (validate_payload env (.data { batch with xnet := xnet' })
            past_payloads context cache).1
          = (validate_payload env (.data batch) past_payloads context cache).1) := by
  constructor
  · by_cases hbig : maxBlockPayloadSize env rec < xnet_size + batch.ingress.countBytes
    · simp [validate_payload, hreg, hing, hx, hbig]
    · simp only [validate_payload, hreg, hing, hx]
      rw [if_neg hbig]
      simp only [iff_false_intro hbig, iff_false]
      cases hsv : env.validateSV batch.self_validating context
          (pastSelfValidatingOf past_payloads) with
      | error e =>
        obtain ⟨b, c⟩ := e
        cases b <;> simp [mapSVErr]
      | ok u => simp
  · intro xnet' hx'
    simp [validate_payload, hreg, hing, hx, hx']

/-- Witness for C2: a 50-byte canonical xnet size plus a 200-byte ingress
payload exceeds the 100-byte budget and is rejected as `PayloadTooBig`. -/
theorem validate_payload_too_big_iff_witness :
    (validate_payload envW (.data batchBig) [] ctxW []).1
      = .error (.permanent (.payloadTooBig (maxBlockPayloadSize envW recW)
          (50 + batchBig.ingress.countBytes))) :=
  (validate_payload_too_big_iff envW batchBig [] ctxW [] recW 50 rfl rfl rfl).1.mpr
    (by decide)

/-- C3: `get_payload` is a pure function of its arguments and the
collaborators — in particular, its result does not depend on the state of
the internal ingress payload cache: any two coherent caches (for example the
empty cache, i.e. an all-miss run, and a fully populated one, i.e. an
all-hit run) produce byte-identical `BatchPayload` results, assuming the
payload hash is collision-free on the given ancestors. -/
theorem get_payload_cache_independent
    (env : PayloadBuilderEnv) (height : Nat) (past_payloads : List PastEntry)
    (context : ValidationContext) (cache1 cache2 : IngressCache)
    (hHC : HashConsistent env past_payloads)
    (h1 : CacheCoherent env cache1 past_payloads)
    (h2 : CacheCoherent env cache2 past_payloads) :
    (get_payload env height past_payloads context cache1).1
      = (get_payload env height past_payloads context cache2).1 := by
  have hq : ingressQueryOf env cache1 past_payloads context
      = ingressQueryOf env cache2 past_payloads context := by
    unfold ingressQueryOf pastIngressOf
    rw [pastIngressFold_eq_spec env past_payloads [] cache1 hHC h1,
      pastIngressFold_eq_spec env past_payloads [] cache2 hHC h2]
  unfold get_payload
  rw [hq]
  cases env.getSubnetRecord context.registry_version <;> rfl

/-- Witness for C3: an all-miss run (empty cache) and an all-hit run
(populated cache) over one ancestor give the same payload. -/
theorem get_payload_cache_independent_witness :
    (get_payload envW 0 pastW ctxW []).1 = (get_payload envW 0 pastW ctxW cacheW).1 :=
  get_payload_cache_independent envW 0 pastW ctxW [] cacheW
    (by decide) (by decide) (by decide)

/-- Counterexample to C7 as stated: when the times of `past_payloads` are
not descending along the list, the expiry lower bound the code reports (the
time of the *last* entry, here 10) differs from the minimum ancestor time
(here 5), so `get_expiry_lower_bound` does not equal
`min(ancestor.time)` over all entries. -/
theorem ingress_query_expiry_not_min :
    (ingressQueryOf envW [] pastTimesW ctxW).get_expiry_lower_bound
      ≠ specExpiryLowerBound pastTimesW ctxW := by
  decide

/-- C7 (amended): the `IngressSetQuery` built by `get_payload` and
`validate_payload` satisfies: `contains(id)` is true iff `id` belongs to the
ingress id set of some non-summary ancestor in `past_payloads` (given a
coherent, collision-free cache), and `get_expiry_lower_bound()` equals the
time of the **last** entry of `past_payloads` (the lowest-height ancestor),
or `ctx.time` when `past_payloads` is empty. -/
theorem ingress_query_contains_and_expiry
    (env : PayloadBuilderEnv) (cache : IngressCache) (past_payloads : List PastEntry)
    (context : ValidationContext) (msg_id : Nat)
    (hHC : HashConsistent env past_payloads)
    (hC : CacheCoherent env cache past_payloads) :
    ((ingressQueryOf env cache past_payloads context).containsId msg_id = true
      ↔ ∃ e ∈ past_payloads, ∃ b, e.2.2 = PayloadM.data b
          ∧ msg_id ∈ b.ingress.messageIds)
    ∧ (ingressQueryOf env cache past_payloads context).get_expiry_lower_bound
        = minBlockTime past_payloads context := by
  refine ⟨?_, rfl⟩
  unfold ingressQueryOf IngressSets.containsId pastIngressOf
  rw [pastIngressFold_eq_spec env past_payloads [] cache hHC hC]
  simp only [List.nil_append, List.any_eq_true, specPastIngress, List.mem_filterMap,
    List.elem_iff]
  constructor
  · rintro ⟨s, ⟨e, he, hs⟩, hmem⟩
    obtain ⟨h, t, p⟩ := e
    cases p with
    | summary => simp at hs
    | data b =>
      simp only at hs
      refine ⟨(h, t, .data b), he, b, rfl, ?_⟩
      cases hs
      exact hmem
  · rintro ⟨e, he, b, hp, hmem⟩
    obtain ⟨h, t, p⟩ := e
    cases p with
    | summary => simp at hp
    | data b' =>
      simp only at hp
      cases hp
      exact ⟨b.ingress.messageIds, ⟨(h, t, .data b), he, rfl⟩, hmem⟩

/-- Witness for the amended C7 at a concrete query: id 5 is carried by the
single non-summary ancestor. -/
theorem ingress_query_contains_and_expiry_witness :
    ((ingressQueryOf envW cacheW pastW ctxW).containsId 5 = true
      ↔ ∃ e ∈ pastW, ∃ b, e.2.2 = PayloadM.data b ∧ 5 ∈ b.ingress.messageIds)
    ∧ (ingressQueryOf envW cacheW pastW ctxW).get_expiry_lower_bound
        = minBlockTime pastW ctxW :=
  ingress_query_contains_and_expiry envW cacheW pastW ctxW 5 (by decide) (by decide)

/-- C4: in `validate_dealings`, an unvalidated dealing whose
`(transcript_id, dealer_id)` key occurs at least twice in the unvalidated
batch contributes exactly one `HandleInvalid` with the duplicate-in-batch
reason — regardless of the classifier's verdict — and that action appears
in the returned change set; a dealing whose key occurs exactly once proceeds
to the classifier. -/
theorem validate_dealings_batch_duplicates
    (pool : EcdsaPoolM) (block_reader : EcdsaBlockReader)
    (verify : IDkgTranscriptParams → EcdsaDealing → VerifyDealingResult)
    (id : Nat) (d : EcdsaDealing)
    (hmem : (id, d) ∈ pool.unvalidatedDealings) :
    (2 ≤ (unvalidatedDealingKeys pool).count (dealingKey d) →
      validateDealingEntry pool block_reader verify (id, d)
          = [.handleInvalid id .duplicateDealingInBatch]
        ∧ EcdsaChangeAction.handleInvalid id .duplicateDealingInBatch
            ∈ validate_dealings pool block_reader verify)
    ∧ ((unvalidatedDealingKeys pool).count (dealingKey d) = 1 →
      validateDealingEntry pool block_reader verify (id, d)
        = classifyDealing pool block_reader verify (id, d)) := by
  constructor
  · intro h2
    have hdup : isDuplicateDealingKey pool (dealingKey d) = true := by
      unfold isDuplicateDealingKey
      exact decide_eq_true h2
    have hentry : validateDealingEntry pool block_reader verify (id, d)
        = [.handleInvalid id .duplicateDealingInBatch] := by
      unfold validateDealingEntry
      rw [hdup]
      rfl
    refine ⟨hentry, ?_⟩
    unfold validate_dealings
    exact List.mem_flatMap.mpr ⟨(id, d), hmem, by rw [hentry]; exact List.mem_singleton.mpr rfl⟩
  · intro h1
    have hdup : isDuplicateDealingKey pool (dealingKey d) = false := by
      unfold isDuplicateDealingKey
      rw [h1]
      decide
    unfold validateDealingEntry
    rw [hdup]
    rfl

/-- Witness for C4: the S3 scenario — both dealings from dealer 20 are
batch duplicates and the single dealing from dealer 21 goes to the
classifier (where it is accepted). -/
theorem validate_dealings_batch_duplicates_witness :
    (validateDealingEntry poolS3 blockReaderW verifyDealingW (1, dealingB1)
        = [.handleInvalid 1 .duplicateDealingInBatch]
      ∧ EcdsaChangeAction.handleInvalid 1 .duplicateDealingInBatch
          ∈ validate_dealings poolS3 blockReaderW verifyDealingW)
    ∧ validateDealingEntry poolS3 blockReaderW verifyDealingW (3, dealingC)
        = classifyDealing poolS3 blockReaderW verifyDealingW (3, dealingC)
    ∧ EcdsaChangeAction.handleInvalid 2 .duplicateDealingInBatch
        ∈ validate_dealings poolS3 blockReaderW verifyDealingW
    ∧ EcdsaChangeAction.moveToValidated 3
        ∈ validate_dealings poolS3 blockReaderW verifyDealingW :=
  ⟨(validate_dealings_batch_duplicates poolS3 blockReaderW verifyDealingW 1 dealingB1
      (by decide)).1 (by decide),
   (validate_dealings_batch_duplicates poolS3 blockReaderW verifyDealingW 3 dealingC
      (by decide)).2 (by decide),
   (validate_dealings_batch_duplicates poolS3 blockReaderW verifyDealingW 2 dealingB2
      (by decide)).1 (by decide) |>.2,
   by decide⟩

/-- C5: in `validate_dealing_support`, a non-batch-duplicate unvalidated
support classified `Process` whose signer is a receiver but whose dealing is
not yet validated contributes no change action (it stays unvalidated); on a
call against a pool where the matching validated dealing exists (and no
support from this signer is validated yet), verification runs and, on
success, the support is moved to the validated pool. -/
theorem validate_dealing_support_defer_then_validate
    (block_reader : EcdsaBlockReader)
    (verify : IDkgTranscriptParams → EcdsaDealingSupport → VerifySupportResult)
    (id : Nat) (s : EcdsaDealingSupport) (params : IDkgTranscriptParams) :
    (∀ pool : EcdsaPoolM, (id, s) ∈ pool.unvalidatedSupports →
      isDuplicateSupportKey pool (supportKey s) = false →
      EcdsaAction.action block_reader s.content.requested_height
          s.content.transcript_id = .process params →
      params.receivers.contains s.signature.signer = true →
      (validDealingKeys pool).contains (dealingKey s.content) = false →
      validateSupportEntry pool block_reader verify (id, s) = [])
    ∧ (∀ pool : EcdsaPoolM, (id, s) ∈ pool.unvalidatedSupports →
      isDuplicateSupportKey pool (supportKey s) = false →
      EcdsaAction.action block_reader s.content.requested_height
          s.content.transcript_id = .process params →
      params.receivers.contains s.signature.signer = true →
      (validDealingKeys pool).contains (dealingKey s.content) = true →
      has_node_issued_dealing_support pool s.content.transcript_id
          s.content.dealer_id s.signature.signer = false →
      verify params s = .ok →
      EcdsaChangeAction.moveToValidated id
        ∈ validate_dealing_support pool block_reader verify) := by
  constructor
  · intro pool _ hdup hact hrecv hnod
    have hr : s.signature.signer ∈ params.receivers := by simpa using hrecv
    have hn : dealingKey s.content ∉ validDealingKeys pool := by simpa using hnod
    simp [validateSupportEntry, hdup, hact, hr, hn]
  · intro pool hmem hdup hact hrecv hvd hniss hok
    have hr : s.signature.signer ∈ params.receivers := by simpa using hrecv
    have hv : dealingKey s.content ∈ validDealingKeys pool := by simpa using hvd
    have hentry : validateSupportEntry pool block_reader verify (id, s)
        = [.moveToValidated id] := by
      simp [validateSupportEntry, crypto_verify_dealing_support, hdup, hact, hr, hv,
        hniss, hok]
    unfold validate_dealing_support
    exact List.mem_flatMap.mpr ⟨(id, s), hmem, by rw [hentry]; exact List.mem_singleton.mpr rfl⟩

/-- Witness for C5: the support for transcript 3 is deferred while its
dealing is missing and moved to validated once the dealing is present. -/
theorem validate_dealing_support_defer_then_validate_witness :
    validateSupportEntry poolNoDealing blockReaderD verifySupportW (5, supportD) = []
    ∧ EcdsaChangeAction.moveToValidated 5
        ∈ validate_dealing_support poolWithDealing blockReaderD verifySupportW :=
  ⟨(validate_dealing_support_defer_then_validate blockReaderD verifySupportW 5 supportD
      paramsD).1 poolNoDealing (by decide) (by decide) (by decide) (by decide) (by decide),
   (validate_dealing_support_defer_then_validate blockReaderD verifySupportW 5 supportD
      paramsD).2 poolWithDealing (by decide) (by decide) (by decide) (by decide) (by decide)
      (by decide) rfl⟩

/-- C6: `purge_artifacts` emits a removal — `RemoveUnvalidated` for the
unvalidated half, `RemoveValidated` for the validated half — for every
dealing and dealing support with `requested_height ≤ block_reader.height()`
whose transcript is no longer requested, and every action of its change set
is such a removal for such an artifact, so artifacts failing either
condition produce no removal. -/
theorem purge_artifacts_exact (pool : EcdsaPoolM) (block_reader : EcdsaBlockReader) :
    (∀ e ∈ pool.unvalidatedDealings,
      should_purge e.2 block_reader.height (inProgressIds block_reader) = true →
      EcdsaChangeAction.removeUnvalidated e.1 ∈ purge_artifacts pool block_reader)
    ∧ (∀ e ∈ pool.validatedDealings,
      should_purge e.2 block_reader.height (inProgressIds block_reader) = true →
      EcdsaChangeAction.removeValidated e.1 ∈ purge_artifacts pool block_reader)
    ∧ (∀ e ∈ pool.unvalidatedSupports,
      should_purge e.2.content block_reader.height (inProgressIds block_reader) = true →
      EcdsaChangeAction.removeUnvalidated e.1 ∈ purge_artifacts pool block_reader)
    ∧ (∀ e ∈ pool.validatedSupports,
      should_purge e.2.content block_reader.height (inProgressIds block_reader) = true →
      EcdsaChangeAction.removeValidated e.1 ∈ purge_artifacts pool block_reader)
    ∧ (∀ a ∈ purge_artifacts pool block_reader,
      (∃ e ∈ pool.unvalidatedDealings, a = EcdsaChangeAction.removeUnvalidated e.1
        ∧ should_purge e.2 block_reader.height (inProgressIds block_reader) = true)
      ∨ (∃ e ∈ pool.validatedDealings, a = EcdsaChangeAction.removeValidated e.1
        ∧ should_purge e.2 block_reader.height (inProgressIds block_reader) = true)
      ∨ (∃ e ∈ pool.unvalidatedSupports, a = EcdsaChangeAction.removeUnvalidated e.1
        ∧ should_purge e.2.content block_reader.height (inProgressIds block_reader) = true)
      ∨ (∃ e ∈ pool.validatedSupports, a = EcdsaChangeAction.removeValidated e.1
        ∧ should_purge e.2.content block_reader.height (inProgressIds block_reader) = true)) := by
  refine ⟨?_, ?_, ?_, ?_, ?_⟩
  · intro e he hp
    simp only [purge_artifacts, List.mem_append, List.mem_map, List.mem_filter]
    exact Or.inl (Or.inl (Or.inl ⟨e, ⟨he, hp⟩, rfl⟩))
  · intro e he hp
    simp only [purge_artifacts, List.mem_append, List.mem_map, List.mem_filter]
    exact Or.inl (Or.inl (Or.inr ⟨e, ⟨he, hp⟩, rfl⟩))
  · intro e he hp
    simp only [purge_artifacts, List.mem_append, List.mem_map, List.mem_filter]
    exact Or.inl (Or.inr ⟨e, ⟨he, hp⟩, rfl⟩)
  · intro e he hp
    simp only [purge_artifacts, List.mem_append, List.mem_map, List.mem_filter]
    exact Or.inr ⟨e, ⟨he, hp⟩, rfl⟩
  · intro a ha
    simp only [purge_artifacts, List.mem_append, List.mem_map, List.mem_filter] at ha
    rcases ha with ((⟨e, ⟨he, hp⟩, rfl⟩ | ⟨e, ⟨he, hp⟩, rfl⟩) | ⟨e, ⟨he, hp⟩, rfl⟩)
      | ⟨e, ⟨he, hp⟩, rfl⟩
    · exact Or.inl ⟨e, he, rfl, hp⟩
    · exact Or.inr (Or.inl ⟨e, he, rfl, hp⟩)
    · exact Or.inr (Or.inr (Or.inl ⟨e, he, rfl, hp⟩))
    · exact Or.inr (Or.inr (Or.inr ⟨e, he, rfl, hp⟩))

/-- Witness for C6: the stale dealing (height 20 ≤ 100, transcript 2 not
requested) is removed from the unvalidated half. -/
theorem purge_artifacts_exact_witness :
    EcdsaChangeAction.removeUnvalidated 1 ∈ purge_artifacts poolPurge blockReaderPurge :=
  (purge_artifacts_exact poolPurge blockReaderPurge).1
    (poolPurge.unvalidatedDealings.get ⟨0, by decide⟩) (by decide) (by decide)

theorem mem_insertAssoc {α : Type} (m : List (Nat × α)) (k : Nat) (v : α)
    (x : Nat × α) (h : x ∈ insertAssoc m k v) : x ∈ m ∨ x = (k, v) := by
  unfold insertAssoc at h
  by_cases hany : m.any (fun e => e.1 = k) = true
  · rw [if_pos hany] at h
    obtain ⟨y, hy, hxy⟩ := List.mem_map.mp h
    by_cases hk : y.1 = k
    · right
      rw [if_pos hk] at hxy
      exact hxy.symm
    · left
      rw [if_neg hk] at hxy
      exact hxy ▸ hy
  · rw [if_neg hany] at h
    rcases List.mem_append.mp h with h1 | h1
    · exact Or.inl h1
    · exact Or.inr (List.mem_singleton.mp h1)

/-- Every entry accumulated by the completed-dealings walk stores a dealing
whose matching validated supports reach the verification threshold. -/
theorem completedDealingsGo_support_bound (pool : EcdsaPoolM)
    (aggregate : List MultiSignatureShare → Nat → Option Nat)
    (transcript_params : IDkgTranscriptParams) :
    ∀ (dealings : List (Nat × EcdsaDealing)) (acc : List (Nat × (EcdsaDealing × Nat))),
    (∀ x ∈ acc, transcript_params.verification_threshold
      ≤ (supportSharesFor pool x.2.1).length) →
    ∀ x ∈ completedDealingsGo pool aggregate transcript_params dealings acc,
      transcript_params.verification_threshold ≤ (supportSharesFor pool x.2.1).length := by
  intro dealings
  induction dealings with
  | nil => intro acc hacc x hx; exact hacc x hx
  | cons e rest ih =>
    intro acc hacc x hx
    unfold completedDealingsGo at hx
    by_cases ht : e.2.transcript_id = transcript_params.transcript_id
    · rw [if_pos ht] at hx
      cases hagg : crypto_aggregate_dealing_support aggregate transcript_params
          (supportSharesFor pool e.2) with
      | none =>
        rw [hagg] at hx
        exact ih acc hacc x hx
      | some ms =>
        rw [hagg] at hx
        refine ih _ ?_ x hx
        intro y hy
        rcases mem_insertAssoc _ _ _ y hy with hold | hnew
        · exact hacc y hold
        · subst hnew
          unfold crypto_aggregate_dealing_support at hagg
          by_cases hlen : (supportSharesFor pool e.2).length
              < transcript_params.verification_threshold
          · rw [if_pos hlen] at hagg
            cases hagg
          · exact Nat.le_of_not_lt hlen
    · rw [if_neg ht] at hx
      exact ih acc hacc x hx

/-- C8: `crypto_aggregate_dealing_support` returns `none` — for every
aggregation function, i.e. without attempting aggregation — whenever the
support shares are below the verification threshold, so every completed
dealing recorded by `get_completed_transcripts` has at least
`verification_threshold` matching validated supports; and
`crypto_create_transcript` returns `none` — without invoking transcript
creation — whenever the completed dealings are below the collection
threshold. -/
theorem transcript_builder_thresholds
    (aggregate : List MultiSignatureShare → Nat → Option Nat)
    (createTranscript : IDkgTranscriptParams → List (Nat × (EcdsaDealing × Nat)) → Option Nat)
    (transcript_params : IDkgTranscriptParams) :
    (∀ support_shares : List EcdsaDealingSupport,
      support_shares.length < transcript_params.verification_threshold →
      crypto_aggregate_dealing_support aggregate transcript_params support_shares = none)
    ∧ (∀ verified_dealings : List (Nat × (EcdsaDealing × Nat)),
      verified_dealings.length < transcript_params.collection_threshold →
      crypto_create_transcript createTranscript transcript_params verified_dealings = none)
    ∧ (∀ pool : EcdsaPoolM,
      ∀ x ∈ completedDealingsFor pool aggregate transcript_params,
      transcript_params.verification_threshold ≤ (supportSharesFor pool x.2.1).length) := by
  refine ⟨?_, ?_, ?_⟩
  · intro shares hlt
    unfold crypto_aggregate_dealing_support
    rw [if_pos hlt]
  · intro vd hlt
    unfold crypto_create_transcript
    rw [if_pos hlt]
  · intro pool x hx
    exact completedDealingsGo_support_bound pool aggregate transcript_params
      pool.validatedDealings [] (by intro y hy; cases hy) x hx

/-- Witness for C8: empty shares and dealings are below the thresholds of
`paramsD` (both 1), and the one completed dealing of `poolAgg` has one
matching validated support. -/
theorem transcript_builder_thresholds_witness :
    crypto_aggregate_dealing_support aggregateW paramsD [] = none
    ∧ crypto_create_transcript createTranscriptW paramsD [] = none
    ∧ paramsD.verification_threshold ≤ (supportSharesFor poolAgg dealingD).length :=
  ⟨(transcript_builder_thresholds aggregateW createTranscriptW paramsD).1 [] (by decide),
   (transcript_builder_thresholds aggregateW createTranscriptW paramsD).2.1 [] (by decide),
   (transcript_builder_thresholds aggregateW createTranscriptW paramsD).2.2 poolAgg
     (20, (dealingD, 7)) (by decide)⟩

theorem validateDealingEntry_shape (pool : EcdsaPoolM) (block_reader : EcdsaBlockReader)
    (verify : IDkgTranscriptParams → EcdsaDealing → VerifyDealingResult)
    (e : Nat × EcdsaDealing) (a : EcdsaChangeAction)
    (h : a ∈ validateDealingEntry pool block_reader verify e) :
    (∃ r, a = .handleInvalid e.1 r) ∨ a = .removeUnvalidated e.1
      ∨ a = .moveToValidated e.1 := by
  unfold validateDealingEntry classifyDealing crypto_verify_dealing at h
  repeat' split at h
  all_goals try simp only [List.mem_singleton] at h
  all_goals try cases h
  all_goals first
    | exact Or.inl ⟨_, rfl⟩
    | exact Or.inr (Or.inl rfl)
    | exact Or.inr (Or.inr rfl)

theorem validateSupportEntry_shape (pool : EcdsaPoolM) (block_reader : EcdsaBlockReader)
    (verify : IDkgTranscriptParams → EcdsaDealingSupport → VerifySupportResult)
    (e : Nat × EcdsaDealingSupport) (a : EcdsaChangeAction)
    (h : a ∈ validateSupportEntry pool block_reader verify e) :
    (∃ r, a = .handleInvalid e.1 r) ∨ a = .removeUnvalidated e.1
      ∨ a = .moveToValidated e.1 := by
  unfold validateSupportEntry crypto_verify_dealing_support at h
  repeat' split at h
  all_goals try simp only [List.mem_singleton] at h
  all_goals try cases h
  all_goals first
    | exact Or.inl ⟨_, rfl⟩
    | exact Or.inr (Or.inl rfl)
    | exact Or.inr (Or.inr rfl)

/-- C10: every action emitted by `validate_dealings` or
`validate_dealing_support` is a `HandleInvalid`, `RemoveUnvalidated` or
`MoveToValidated` targeting an id from the unvalidated pool half, and is in
particular never an `AddToValidated` or a `RemoveValidated`, so applying
either change set never removes or replaces a validated artifact. -/
theorem validation_change_sets_unvalidated_only
    (pool : EcdsaPoolM) (block_reader : EcdsaBlockReader)
    (verifyD : IDkgTranscriptParams → EcdsaDealing → VerifyDealingResult)
    (verifyS : IDkgTranscriptParams → EcdsaDealingSupport → VerifySupportResult)
    (a : EcdsaChangeAction)
    (ha : a ∈ validate_dealings pool block_reader verifyD
      ∨ a ∈ validate_dealing_support pool block_reader verifyS) :
    ∃ id, id ∈ unvalidatedIds pool
      ∧ ((∃ r, a = .handleInvalid id r) ∨ a = .removeUnvalidated id
          ∨ a = .moveToValidated id)
      ∧ (∀ m, a ≠ .addToValidated m) ∧ (∀ i, a ≠ .removeValidated i) := by
  rcases ha with h | h
  · obtain ⟨e, he, hae⟩ := List.mem_flatMap.mp h
    have hs := validateDealingEntry_shape pool block_reader verifyD e a hae
    refine ⟨e.1, List.mem_append.mpr (Or.inl (List.mem_map.mpr ⟨e, he, rfl⟩)), hs, ?_, ?_⟩
    · intro m hm
      rcases hs with ⟨r, rfl⟩ | rfl | rfl <;> cases hm
    · intro i hi
      rcases hs with ⟨r, rfl⟩ | rfl | rfl <;> cases hi
  · obtain ⟨e, he, hae⟩ := List.mem_flatMap.mp h
    have hs := validateSupportEntry_shape pool block_reader verifyS e a hae
    refine ⟨e.1, List.mem_append.mpr (Or.inr (List.mem_map.mpr ⟨e, he, rfl⟩)), hs, ?_, ?_⟩
    · intro m hm
      rcases hs with ⟨r, rfl⟩ | rfl | rfl <;> cases hm
    · intro i hi
      rcases hs with ⟨r, rfl⟩ | rfl | rfl <;> cases hi

/-- Witness for C10 on the S3 scenario change set. -/
theorem validation_change_sets_unvalidated_only_witness :
    ∃ id, id ∈ unvalidatedIds poolS3
      ∧ ((∃ r, EcdsaChangeAction.moveToValidated 3 = .handleInvalid id r)
          ∨ EcdsaChangeAction.moveToValidated 3 = .removeUnvalidated id
          ∨ EcdsaChangeAction.moveToValidated 3 = .moveToValidated id)
      ∧ (∀ m, EcdsaChangeAction.moveToValidated 3 ≠ .addToValidated m)
      ∧ (∀ i, EcdsaChangeAction.moveToValidated 3 ≠ .removeValidated i) :=
  validation_change_sets_unvalidated_only poolS3 blockReaderW verifyDealingW
    verifySupportW (.moveToValidated 3) (Or.inl (by decide))
